import Mathlib

/-!
Verification development for the autoassets positioning and order-execution
engine.  The Python sources (`autoassets/__init__.py`,
`autoassets/positioning/ratio2.py`, `autoassets/positioning/accumulative.py`)
are shallowly embedded here: Python floats become exact rationals, Python
dicts keyed by contract symbol become association lists, Python exceptions
become `Option` (with `none` marking a raised exception), and the external
broker call becomes an explicit boolean parameter carrying the broker's
reported result.
-/

namespace Autoassets

/-- `autoassets.BudgetUnit` (DOLLAR / SHARE). -/
inductive BudgetUnit where
  | DOLLAR
  | SHARE
deriving DecidableEq, Repr

/-- `autoassets.OptionContractType`.  `ALL` is only ever used as a query
filter, never stored in a leg or contract row, so it is omitted; the
`UNSUPPORTED` member is kept because the engine checks for it. -/
inductive OptionContractType where
  | CALL
  | PUT
  | UNSUPPORTED
deriving DecidableEq, Repr

/-- `autoassets.OrderDirection` (the option-order members used by ratio2). -/
inductive OrderDirection where
  | BUY_TO_OPEN
  | SELL_TO_OPEN
  | BUY_TO_CLOSE
  | SELL_TO_CLOSE
deriving DecidableEq, Repr

/-- One option-contract snapshot row (the fields of
`autoassets.OptionContractField` that the embedded code reads).  Symbols are
modelled as naturals. -/
structure Contract where
  symbol : ℕ
  opex : ℚ
  strike : ℚ
  contract_type : OptionContractType
  bid_price : ℚ
  ask_price : ℚ
deriving DecidableEq, Repr

/-- One ledger leg, as written by `ratio2._init_leg` and mutated by the order
functions.  `last_trade_price` and `hedge_symbol` are optional because the
corresponding dict keys appear only after certain updates. -/
structure Leg where
  opex : ℚ
  strike : ℚ
  contract_type : OptionContractType
  shares_per_contract : ℚ
  created_at : ℚ
  cost : ℚ
  quantity : ℤ
  last_trade_price : Option ℚ
  hedge_symbol : Option ℕ
deriving DecidableEq, Repr

/-- `asset['leg_db']`: a Python dict keyed by contract symbol, modelled as an
association list in insertion order. -/
abbrev LegDb := List (ℕ × Leg)

/-- The raw configured budget value: either a scalar or a (possibly
ill-formed) list range, as read from `asset['budget']` / `budget['amount']`. -/
inductive BudgetValue where
  | scalar (x : ℚ)
  | range (xs : List ℚ)
deriving DecidableEq, Repr

/-- The mutable runtime state of a ratio2 (option-spread) asset.
`profit` and `slippage` are modelled as plain rationals: the source
initialises the `profit` key to `0.0` before every use, and every reachable
state has had `slippage` initialised by `_total_cost`, so absence of either
key is observationally the same as value `0`.  The raw budget configuration
is carried along because `availability` re-resolves it on every call. -/
structure Asset where
  budget_unit : Option BudgetUnit
  budget_value : BudgetValue
  legDb : Option LegDb
  profit : ℚ
  slippage : ℚ
deriving DecidableEq, Repr

/-! ### Module-level constants of `positioning/ratio2.py`, as exact rationals. -/

def UNITS_PER_CONTRACT : ℚ := 100

def COMMISSION_PER_CONTRACT : ℚ := 23 / 20

def NONIDEAL_ADJUSTMENT_FRACTION : ℚ := 0

def MAX_BUY_MARGIN_PREMIUM : ℚ := 3 / 20

def MIN_COST_PREMIUM : ℚ := 1 / 20 + MAX_BUY_MARGIN_PREMIUM

def MIN_SELL_PREMIUM : ℚ := 3 * MIN_COST_PREMIUM

/-- `math.copysign(1.0, q)` for an integer `q` (Python returns `1.0` at `0`). -/
def copysign1 (q : ℤ) : ℚ := if q < 0 then -1 else 1

/-! ### Dict primitives on the association-list ledger. -/

/-- Dict lookup (`leg_db[symbol]` / `symbol in leg_db`). -/
def dbLookup (db : LegDb) (s : ℕ) : Option Leg :=
  match db with
  | [] => none
  | p :: rest => if p.1 = s then some p.2 else dbLookup rest s

/-- Dict membership test (`symbol in leg_db`). -/
def dbMember (db : LegDb) (s : ℕ) : Prop := (dbLookup db s).isSome = true

instance (db : LegDb) (s : ℕ) : Decidable (dbMember db s) := by
  unfold dbMember; infer_instance

/-- In-place mutation of the entry at key `s` (`leg_db[symbol][field] = ...`). -/
def dbUpdate (db : LegDb) (s : ℕ) (f : Leg → Leg) : LegDb :=
  db.map (fun p => if p.1 = s then (p.1, f p.2) else p)

/-- Dict deletion (`del leg_db[symbol]`). -/
def dbErase (db : LegDb) (s : ℕ) : LegDb :=
  db.filter (fun p => decide (p.1 ≠ s))

/-- Create-if-absent: Python dict insertion appends at the end. -/
def dbIns (db : LegDb) (s : ℕ) (l : Leg) : LegDb :=
  if dbMember db s then db else db ++ [(s, l)]

/-- `ratio2._init_leg`: the fresh leg created on first reference to a
contract (`now` is the wall-clock creation time). -/
def _init_leg (c : Contract) (now : ℚ) : Leg :=
  { opex := c.opex
    strike := c.strike
    contract_type := c.contract_type
    shares_per_contract := UNITS_PER_CONTRACT
    created_at := now
    cost := 0
    quantity := 0
    last_trade_price := none
    hedge_symbol := none }

/-- `ratio2._place_single_order`.  `enable_trades` is the resolved
`positioning['enable_trades']` flag and `brokerOk` is the boolean the broker
collaborator would report if called.  Rational division is total (`x / 0 = 0`);
the only division below is by `quantity * shares_per_contract` of an existing
leg, which is nonzero in every state satisfying the ledger invariant. -/
def _place_single_order (enable_trades brokerOk : Bool) (now : ℚ) (asset : Asset)
    (quantity : ℤ) (contract_df : Contract) (hedged_symbol : Option ℕ) :
    Bool × Asset :=
  if quantity = 0 then (false, asset)
  else
    let leg_db := asset.legDb.getD []
    let symbol := contract_df.symbol
    let position? := dbLookup leg_db symbol
    let direction : OrderDirection :=
      if 0 < quantity then
        match position? with
        | none => .BUY_TO_OPEN
        | some p => if 0 < p.quantity then .BUY_TO_OPEN else .BUY_TO_CLOSE
      else
        match position? with
        | none => .SELL_TO_OPEN
        | some p => if p.quantity < 0 then .SELL_TO_OPEN else .SELL_TO_CLOSE
    let premium := if 0 < quantity then contract_df.ask_price else contract_df.bid_price
    let other_premium := if 0 < quantity then contract_df.bid_price else contract_df.ask_price
    if enable_trades = true ∧ (0 < quantity ∨ MIN_SELL_PREMIUM ≤ premium) ∧ brokerOk = false then
      (false, asset)
    else
      let db1 := dbIns leg_db symbol (_init_leg contract_df now)
      let db2 := match hedged_symbol with
        | some hs =>
            if dbMember db1 hs then dbUpdate db1 hs (fun l => { l with hedge_symbol := some symbol })
            else db1
        | none => db1
      let profitD : ℚ :=
        if direction = .BUY_TO_CLOSE ∨ direction = .SELL_TO_CLOSE then
          match position? with
          | some p =>
              let closing_units : ℚ :=
                p.shares_per_contract * ((min quantity.natAbs p.quantity.natAbs : ℕ) : ℚ)
              closing_units * (copysign1 quantity *
                  (p.cost / ((p.quantity : ℚ) * p.shares_per_contract) -
                    premium * (1 + copysign1 quantity * NONIDEAL_ADJUSTMENT_FRACTION)) -
                COMMISSION_PER_CONTRACT / p.shares_per_contract)
          | none => 0
        else 0
      let oldq : ℤ := match dbLookup db2 symbol with
        | some l => l.quantity
        | none => 0
      let newq := oldq + quantity
      let costD : ℚ :=
        profitD + (quantity : ℚ) *
          (UNITS_PER_CONTRACT * premium * (1 + copysign1 quantity * NONIDEAL_ADJUSTMENT_FRACTION) +
            copysign1 quantity * COMMISSION_PER_CONTRACT)
      let db3 :=
        if newq = 0 then dbErase db2 symbol
        else dbUpdate db2 symbol
          (fun l => { l with quantity := newq, last_trade_price := some premium, cost := l.cost + costD })
      let slippageD : ℚ :=
        ((|premium * (1 + NONIDEAL_ADJUSTMENT_FRACTION) - other_premium|) / 2 * UNITS_PER_CONTRACT +
          COMMISSION_PER_CONTRACT) * |(quantity : ℚ)|
      (true,
        { asset with
          legDb := if db3 = [] then none else some db3
          profit := asset.profit + profitD
          slippage := asset.slippage + slippageD })

/-- `ratio2._place_spread_order`.  The long- and short-leg position rows are
snapshotted from the ledger at entry (exactly as the Python function reads
`leg_df` once); the quantity/cost writes then act on the evolving dict. -/
def _place_spread_order (enable_trades brokerOk : Bool) (now : ℚ) (asset : Asset)
    (quantity : ℤ) (buy_df sell_df : Contract) : Bool × Asset :=
  let leg_db := asset.legDb.getD []
  let long_symbol := buy_df.symbol
  let short_symbol := sell_df.symbol
  let long_position? := dbLookup leg_db long_symbol
  let short_position? := dbLookup leg_db short_symbol
  let long_premium := buy_df.ask_price
  let other_long_premium := buy_df.bid_price
  let short_premium := sell_df.bid_price
  let other_short_premium := sell_df.ask_price
  let open_or_close_long : OrderDirection :=
    match long_position? with
    | none => .BUY_TO_OPEN
    | some p => if 0 < p.quantity then .BUY_TO_OPEN else .BUY_TO_CLOSE
  let open_or_close_short : OrderDirection :=
    match short_position? with
    | none => .SELL_TO_OPEN
    | some p => if p.quantity < 0 then .SELL_TO_OPEN else .SELL_TO_CLOSE
  if enable_trades = true ∧ MIN_SELL_PREMIUM ≤ short_premium ∧ brokerOk = false then
    (false, asset)
  else
    -- Long leg update.
    let db1 := dbIns leg_db long_symbol (_init_leg buy_df now)
    let long_profit : ℚ :=
      if open_or_close_long = .BUY_TO_CLOSE then
        match long_position? with
        | some p =>
            let closing_units : ℚ :=
              p.shares_per_contract * ((min quantity (p.quantity.natAbs : ℤ) : ℤ) : ℚ)
            closing_units * (p.cost / ((p.quantity : ℚ) * p.shares_per_contract) -
                long_premium * (1 + NONIDEAL_ADJUSTMENT_FRACTION) -
              COMMISSION_PER_CONTRACT / p.shares_per_contract)
        | none => 0
      else 0
    let longOld : ℤ := match dbLookup db1 long_symbol with
      | some l => l.quantity
      | none => 0
    let longNew := longOld + quantity
    let long_cost : ℚ :=
      if longNew = 0 then 0
      else long_profit + (quantity : ℚ) *
        (UNITS_PER_CONTRACT * (long_premium * (1 + NONIDEAL_ADJUSTMENT_FRACTION)) +
          COMMISSION_PER_CONTRACT)
    let db2 :=
      if longNew = 0 then dbErase db1 long_symbol
      else dbUpdate db1 long_symbol
        (fun l => { l with
          quantity := longNew
          last_trade_price := some long_premium
          cost := l.cost + long_cost })
    -- Short leg update.
    let db3 := dbIns db2 short_symbol (_init_leg sell_df now)
    let short_profit : ℚ :=
      if open_or_close_short = .SELL_TO_CLOSE then
        match short_position? with
        | some p =>
            let closing_units : ℚ :=
              p.shares_per_contract * ((min quantity p.quantity : ℤ) : ℚ)
            closing_units * (short_premium * (1 - NONIDEAL_ADJUSTMENT_FRACTION) -
                p.cost / ((p.quantity : ℚ) * p.shares_per_contract) -
              COMMISSION_PER_CONTRACT / p.shares_per_contract)
        | none => 0
      else 0
    let shortOld : ℤ := match dbLookup db3 short_symbol with
      | some l => l.quantity
      | none => 0
    let shortNew := shortOld - quantity
    let short_cost : ℚ :=
      if shortNew = 0 then 0
      else short_profit + (quantity : ℚ) *
        (UNITS_PER_CONTRACT * (-short_premium * (1 - NONIDEAL_ADJUSTMENT_FRACTION)) +
          COMMISSION_PER_CONTRACT)
    let db4 :=
      if shortNew = 0 then dbErase db3 short_symbol
      else dbUpdate db3 short_symbol
        (fun l => { l with
          quantity := shortNew
          last_trade_price := some short_premium
          cost := l.cost + short_cost })
    let spread_profit := long_profit + short_profit
    let slippageD : ℚ :=
      (((|long_premium * (1 + NONIDEAL_ADJUSTMENT_FRACTION) - other_long_premium|) / 2 +
          (|short_premium * (1 + NONIDEAL_ADJUSTMENT_FRACTION) - other_short_premium|) / 2) *
        UNITS_PER_CONTRACT + 2 * COMMISSION_PER_CONTRACT) * (quantity : ℚ)
    (true,
      { asset with
        legDb := if db4 = [] then none else some db4
        profit := asset.profit + spread_profit
        slippage := asset.slippage + slippageD })

/-! ### Budget resolver (`autoassets.budget`). -/

/-- The normalized budget record returned by `autoassets.budget`. -/
structure BudgetSpec where
  unit : BudgetUnit
  amount : ℚ × ℚ
deriving DecidableEq, Repr

/-- `autoassets.budget`: resolves the raw configured budget to a normalized
`{unit, (short, long)}` record, or `none` for an invalid configuration (the
Python function logs and returns `None`).  A bare value defaults to the
DOLLAR unit; a dict wrapper supplies `unit?` explicitly. -/
def budget (unit? : Option BudgetUnit) (value : BudgetValue) : Option BudgetSpec :=
  let unit := unit?.getD .DOLLAR
  match value with
  | .range xs =>
      match xs with
      | [a, b] =>
          let budget_short := min a b
          let budget_long := max a b
          if 0 < budget_short ∨ budget_long < 0 ∨ budget_long ≤ budget_short then none
          else some { unit := unit, amount := (budget_short, budget_long) }
      | _ => none
  | .scalar x =>
      if 0 < x then some { unit := unit, amount := (0, x) }
      else if x < 0 then some { unit := unit, amount := (x, 0) }
      else some { unit := unit, amount := (0, 0) }

/-! ### Sorting (pandas `sort_values`, which is stable). -/

/-- Insert for a stable insertion sort: `x` goes after every earlier element
`y` with `lt y x`, and before the first `y` with `¬ lt y x` (so elements with
equal keys keep their original relative order). -/
def insertOrd {α : Type} (lt : α → α → Bool) (x : α) : List α → List α
  | [] => [x]
  | y :: ys => if lt y x then y :: insertOrd lt x ys else x :: y :: ys

/-- Stable sort of a list under the strict comparison `lt`. -/
def sortOrd {α : Type} (lt : α → α → Bool) (l : List α) : List α :=
  l.foldr (insertOrd lt) []

/-! ### Risk/margin calculator (`ratio2._total_cost`). -/

/-- The result of `_total_cost`: either the saturating maximum `math.inf`
(undefined risk) or a finite total. -/
inductive ECost where
  | inf
  | fin (x : ℚ)
deriving DecidableEq, Repr

/-- The netting loop shared by the put and call sides of `_total_cost`:
consume sorted long legs (farthest-covering first) against the remaining
short quantity `i` while the running liability stays nonnegative.
`dist` is the per-unit strike distance of a leg. -/
def _net_liability (dist : Leg → ℚ) : List Leg → ℤ → ℚ → ℚ
  | [], _, liab => liab
  | l :: rest, i, liab =>
      if 0 < i ∧ 0 ≤ liab then
        let q := min i l.quantity
        _net_liability dist rest (i - q) (liab - (q : ℚ) * dist l * l.shares_per_contract)
      else liab

/-- `ratio2._total_cost` evaluated on an asset: total premium spent plus the
worst of the two per-side liabilities; `inf` when the call side is net
short.  (The Python function also initialises the `profit`/`slippage` keys,
which does not affect the returned value.) -/
def _total_cost (asset : Asset) : ECost :=
  let leg_df := asset.legDb.getD []
  let call_df := leg_df.filter (fun p => decide (p.2.contract_type = .CALL))
  let put_df := leg_df.filter (fun p => decide (p.2.contract_type = .PUT))
  if (call_df.map (fun p => p.2.quantity)).sum < 0 then .inf
  else
    let max_call_strike : ℚ :=
      match call_df.map (fun p => p.2.strike) with
      | [] => 0
      | s :: rest => rest.foldl max s
    -- Put-side liability.
    let put_short := (put_df.filter (fun p => decide (p.2.quantity < 0))).map (fun p => p.2)
    let put_short_liability :=
      (put_short.map (fun l => l.strike * l.shares_per_contract * ((l.quantity.natAbs : ℤ) : ℚ))).sum
    let put_short_quantity : ℤ := (put_short.map (fun l => (l.quantity.natAbs : ℤ))).sum
    let put_long :=
      sortOrd (fun x y => decide (y.strike < x.strike))
        ((put_df.filter (fun p => decide (0 < p.2.quantity))).map (fun p => p.2))
    let put_liability := _net_liability (fun l => l.strike) put_long put_short_quantity put_short_liability
    -- Call-side liability.
    let call_short := (call_df.filter (fun p => decide (p.2.quantity < 0))).map (fun p => p.2)
    let call_short_liability :=
      (call_short.map (fun l =>
        (max_call_strike - l.strike) * l.shares_per_contract * ((l.quantity.natAbs : ℤ) : ℚ))).sum
    let call_short_quantity : ℤ := (call_short.map (fun l => (l.quantity.natAbs : ℤ))).sum
    let call_long :=
      sortOrd (fun x y => decide (x.strike < y.strike))
        ((call_df.filter (fun p => decide (0 < p.2.quantity))).map (fun p => p.2))
    let call_liability :=
      _net_liability (fun l => max_call_strike - l.strike) call_long call_short_quantity call_short_liability
    .fin ((leg_df.map (fun p => p.2.cost)).sum + max 0 (max call_liability put_liability))

/-! ### Python arithmetic that can raise. -/

/-- Python float division: raises `ZeroDivisionError` on a zero denominator,
modelled as `none`. -/
def pydiv (a b : ℚ) : Option ℚ := if b = 0 then none else some (a / b)

/-- Python `int(x)` on a float: truncation toward zero. -/
def pytrunc (x : ℚ) : ℤ := x.num.tdiv (x.den : ℤ)

/-! ### Availability calculators.

Both Python `availability` functions can either return a dict, return `None`
(invalid budget configuration), or raise (`ZeroDivisionError` and friends).
The embedding returns `Option (Option _)`: the outer `none` is a raised
exception, the inner `none` is a returned Python `None`. -/

/-- The availability record built by `ratio2.availability`. -/
structure RatioAvail where
  bullish_trades : ℤ
  bearish_trades : ℤ
  bullish_vacancy : ℚ
  bearish_vacancy : ℚ
  denomination_long : ℤ
  denomination_short : ℤ
deriving DecidableEq, Repr

/-- `ratio2.availability`.  `denomination` is the configured
`positioning['denomination']`.  When `_total_cost` is `math.inf`, the Python
code reaches `int(-inf)` which raises `OverflowError`, hence `none`. -/
def availability_ratio2 (denomination : ℤ) (asset : Asset) : Option (Option RatioAvail) :=
  match budget asset.budget_unit asset.budget_value with
  | none => none  -- unpacking `None['amount']` raises TypeError
  | some budget_specs =>
      let budget_short := budget_specs.amount.1
      let budget_long := budget_specs.amount.2
      if budget_short ≠ 0 then some none
      else if budget_specs.unit = .SHARE then some none
      else
        match _total_cost asset with
        | .inf => none  -- int(-inf) raises OverflowError
        | .fin cost =>
            (pydiv (budget_long - cost) (denomination : ℚ)).bind fun available_trades_float =>
            (pydiv (budget_long - cost) budget_long).bind fun vacancy =>
            some (some
              { bullish_trades := pytrunc available_trades_float
                bearish_trades := pytrunc available_trades_float
                bullish_vacancy := vacancy
                bearish_vacancy := vacancy
                denomination_long := denomination
                denomination_short := 0 })

/-! ### Accumulative positioning (`positioning/accumulative.py`). -/

/-- An underlying quote snapshot (the `QuoteField`s the embedded code reads). -/
structure Quote where
  bid_price : ℚ
  ask_price : ℚ
  mark_price : ℚ
deriving DecidableEq, Repr

/-- Static positioning configuration of an accumulative asset. -/
structure AccConfig where
  enable_trades : Bool
  follow_last_trade_alpha : Option ℚ
deriving DecidableEq, Repr

/-- Mutable runtime state of an accumulative asset; `none` models an absent
dict key (`position` absent means flat).  Timestamps are rationals. -/
structure AccAsset where
  budget_unit : Option BudgetUnit
  budget_value : BudgetValue
  position : Option ℤ
  cost : Option ℚ
  profit : Option ℚ
  ath : Option ℚ
  acquired_at : Option ℚ
  last_trade_price : Option ℚ
deriving DecidableEq, Repr

/-- The availability record built by `accumulative.availability`. -/
structure AccAvail where
  budget_long : ℚ
  budget_short : ℚ
  bullish_trades : ℤ
  bearish_trades : ℤ
  bullish_vacancy : ℚ
  bearish_vacancy : ℚ
  denomination_long : ℤ
  denomination_short : ℤ
deriving DecidableEq, Repr

/-- `accumulative.availability`.  Besides computing the record it mutates the
asset's all-time-high (`asset['ath']`), so the updated asset is returned
alongside.  The outer `none` is a raised exception (in particular the
`bullish_trades_float / total_trades_float` division raises with a zero
budget and no position); the inner `none` is a returned Python `None`. -/
def availability_acc (quote : Quote) (asset : AccAsset) :
    Option (Option AccAvail × AccAsset) :=
  match budget asset.budget_unit asset.budget_value with
  | none => none  -- unpacking `None['amount']` raises TypeError
  | some budget_specs =>
      let budget_short := budget_specs.amount.1
      let budget_long0 := budget_specs.amount.2
      if budget_short ≠ 0 then some (none, asset)
      else if budget_specs.unit ≠ .DOLLAR then some (none, asset)
      else
        let ask_price := quote.ask_price
        let position : ℤ := asset.position.getD 0
        let asset1 :=
          match asset.ath with
          | none => { asset with ath := some ask_price }
          | some v => if v < ask_price then { asset with ath := some ask_price } else asset
        let budget_long :=
          match asset.profit with
          | some p => budget_long0 + p
          | none => budget_long0
        (pydiv budget_long ask_price).bind fun budget_long_shares =>
        let denomination_long : ℤ := 1
        (pydiv (budget_long_shares - (position : ℚ)) (denomination_long : ℚ)).bind
          fun bullish_trades_float =>
        (pydiv (position : ℚ) (denomination_long : ℚ)).bind fun bearish_trades_float =>
        let total_trades_float := bullish_trades_float + bearish_trades_float
        (pydiv bullish_trades_float total_trades_float).bind fun bullish_vacancy =>
        (pydiv bearish_trades_float total_trades_float).bind fun bearish_vacancy =>
        some (some
          { budget_long := budget_long
            budget_short := 0
            bullish_trades := pytrunc bullish_trades_float
            bearish_trades := pytrunc bearish_trades_float
            bullish_vacancy := bullish_vacancy
            bearish_vacancy := bearish_vacancy
            denomination_long := 1
            denomination_short := 0 }, asset1)

/-- `accumulative.cost_per_unit`: average cost per share, `0.0` when flat.
Reading `asset['cost']` with a nonzero position raises `KeyError` when the
key is absent, hence the `Option`. -/
def cost_per_unit_acc (asset : AccAsset) : Option ℚ :=
  match asset.position with
  | some p =>
      if p ≠ 0 then
        match asset.cost with
        | some c => some (c / (p : ℚ))
        | none => none
      else some 0
  | none => some 0

/-- `accumulative._maybe_place_stock_order`.  `cdca_val` stands for the value
of `_cdca(asset, option_chain_db)` at the point the source computes it: that
helper exponentiates by a real-valued year fraction, which has no exact
rational form, so its result is supplied as a parameter (every theorem below
holds for all values of it).  `brokerOk` is the broker's reported result. -/
def _maybe_place_stock_order (cfg : AccConfig) (quote : Quote) (cdca_val : ℚ) (now : ℚ)
    (brokerOk : Bool) (asset : AccAsset) (quantity : ℤ) (follow_last_trade : Bool) :
    Option (Bool × AccAsset) :=
  (availability_acc quote asset).bind fun r =>
  let availability_specs? := r.1
  let asset1 := r.2
  if quantity = 0 then some (false, asset1)
  else
    match availability_specs? with
    | none => none  -- subscripting the returned None raises TypeError
    | some availability_specs =>
        let price := if quantity < 0 then quote.bid_price else quote.ask_price
        let vacancy :=
          if quantity < 0 then availability_specs.bearish_vacancy
          else availability_specs.bullish_vacancy
        let position : ℤ := asset1.position.getD 0
        (cost_per_unit_acc asset1).bind fun unit_cost =>
        let compounded_unit_cost := cdca_val
        let follow_last_trade_alpha := cfg.follow_last_trade_alpha.getD (1 / 1000)
        let min_price_offset := follow_last_trade_alpha * price * vacancy
        let sign_quantity := copysign1 quantity
        let followAbort : Bool :=
          follow_last_trade && decide (position ≠ 0) &&
            (match asset1.last_trade_price with
            | some last_trade_price =>
                decide (sign_quantity * (last_trade_price - sign_quantity * min_price_offset) <
                  sign_quantity * price)
            | none => false)
        if followAbort = true then some (false, asset1)
        else
          (if quantity < 0 then
            match asset1.ath with
            | none => none  -- KeyError 'ath' (availability always sets it first)
            | some ath =>
                let min_sell_price := ath * vacancy + min_price_offset
                some (decide (price < compounded_unit_cost ∨ price < min_sell_price))
          else some false).bind fun sellAbort =>
          if sellAbort = true then some (false, asset1)
          else if cfg.enable_trades = true ∧ brokerOk = false then some (false, asset1)
          else
            let acquired_at := asset1.acquired_at.getD now
            let cost := asset1.cost.getD 0
            let cost_prime := cost + price * (quantity : ℚ)
            (if quantity < 0 then
              let cost1 := cost + unit_cost * (quantity : ℚ)
              some { asset1 with
                cost := some cost1
                profit := some (asset1.profit.getD 0 + (cost1 - cost_prime)) }
            else
              (pydiv (quantity : ℚ) ((quantity : ℚ) + (position : ℚ))).map fun frac =>
              { asset1 with
                cost := some cost_prime
                acquired_at := some ((now - acquired_at) * frac + acquired_at) }).map
              fun asset2 =>
            let position1 := position + quantity
            let asset3 :=
              if position1 = 0 then
                { asset2 with position := none, cost := none, acquired_at := none }
              else { asset2 with position := some position1 }
            (true, { asset3 with last_trade_price := some price })

/-- `accumulative.neutralize`: sell the whole position (`follow_last_trade`
disabled); returns true exactly when the underlying order reports success. -/
def neutralize_acc (cfg : AccConfig) (quote : Quote) (cdca_val : ℚ) (now : ℚ)
    (brokerOk : Bool) (asset : AccAsset) : Option (Bool × AccAsset) :=
  let position : ℤ := asset.position.getD 0
  _maybe_place_stock_order cfg quote cdca_val now brokerOk asset (-position) false

/-! ### Scan-and-adjust driver (`ratio2._scan_and_adjust`).

The adjustment callback receives the current asset (from which the fresh
full ledger view is derived), the side view the while-loop currently holds,
and one position row; it returns `some asset'` when it adjusted (mutating the
asset) and `none` when it made no adjustment (the source callbacks never
mutate on a falsy return).  The unbounded Python `while True` is embedded
with explicit fuel: `none` means the fuel ran out before the loop exited. -/

/-- An adjustment callback, as passed to `_scan_and_adjust`. -/
abbrev AdjustCb := Asset → LegDb → ℕ × Leg → Option Asset

/-- The side view (`call_df` / `put_df` of `_leg_dataframe`) for contract
type `t`. -/
def sideView (t : OptionContractType) (asset : Asset) : LegDb :=
  (asset.legDb.getD []).filter (fun p => decide (p.2.contract_type = t))

/-- The comparison used by `side_df.sort_values(by=sort_by, ascending=...)`;
`key` extracts the sort column from a leg. -/
def legLt (key : Leg → ℚ) (asc : Bool) (x y : ℕ × Leg) : Bool :=
  if asc then decide (key x.2 < key y.2) else decide (key y.2 < key x.2)

/-- Outcome of one pass of the inner `for` loop over the sorted side. -/
inductive ScanR where
  | noHit
  | abort
  | adjusted (a : Asset)

/-- One pass of the inner `for` loop: walk the sorted rows, stop at the first
adjustment (or at an `UNSUPPORTED` row, which makes the whole driver bail
out). -/
def scanLegs (cb : AdjustCb) (a : Asset) (side : LegDb) : LegDb → ScanR
  | [] => .noHit
  | p :: rest =>
      if p.2.contract_type = .UNSUPPORTED then .abort
      else
        match cb a side p with
        | some a1 => .adjusted a1
        | none => scanLegs cb a side rest

/-- The per-side `while True` loop of `_scan_and_adjust`: `view` is the side
dataframe currently held by the loop (recomputed from the asset after every
adjustment), `a` the current asset.  The returned flag records whether the
loop ended by the `UNSUPPORTED` bail-out. -/
def runSide (cb : AdjustCb) (key : Leg → ℚ) (asc : Bool) (t : OptionContractType) :
    ℕ → LegDb → Asset → Option (Asset × Bool)
  | 0, _, _ => none
  | fuel + 1, view, a =>
      if view = [] then some (a, false)
      else
        match scanLegs cb a view (sortOrd (legLt key asc) view) with
        | .noHit => some (a, false)
        | .abort => some (a, true)
        | .adjusted a1 => runSide cb key asc t fuel (sideView t a1) a1

/-- `ratio2._scan_and_adjust`: scan the call side then the put side.  The two
initial side views are both computed from the asset at entry (the Python
`for side_df in (call_df, put_df)` tuple is built once), and an
`UNSUPPORTED` bail-out on the call side skips the put side. -/
def _scan_and_adjust (cb : AdjustCb) (key : Leg → ℚ) (asc : Bool) (fuel : ℕ)
    (a : Asset) : Option Asset :=
  let call_view := sideView .CALL a
  let put_view := sideView .PUT a
  match runSide cb key asc .CALL fuel call_view a with
  | none => none
  | some (a1, true) => some a1
  | some (a1, false) =>
      (runSide cb key asc .PUT fuel put_view a1).map (fun r => r.1)

/-! ### `ratio2.neutralize`. -/

/-- The closing callback defined inside `ratio2.neutralize`: close (the full
quantity of) any leg whose expiration has been reached.  `chain` is the
option-chain lookup by symbol and `brokerF` the broker's reported result as
a function of the submitted symbol and signed quantity. -/
def neutralizeCb (chain : ℕ → Contract) (brokerF : ℕ → ℤ → Bool) (enable_trades : Bool)
    (now : ℚ) : AdjustCb := fun a _side p =>
  let contract_df := chain p.1
  if contract_df.opex ≤ now then
    match _place_single_order enable_trades (brokerF p.1 (-p.2.quantity)) now a
        (-p.2.quantity) contract_df none with
    | (true, a1) => some a1
    | (false, _) => none
  else none

/-- `ratio2.neutralize`: run the closing scan, then report whether the ledger
is gone.  Sorting is the driver's default (`quantity`, ascending). -/
def neutralize (chain : ℕ → Contract) (brokerF : ℕ → ℤ → Bool) (enable_trades : Bool)
    (now : ℚ) (fuel : ℕ) (asset : Asset) : Option (Bool × Asset) :=
  if asset.legDb = none then some (true, asset)
  else
    match _scan_and_adjust (neutralizeCb chain brokerF enable_trades now)
        (fun l => (l.quantity : ℚ)) true fuel asset with
    | none => none
    | some a1 => some (a1.legDb.isNone, a1)

/-! ### Concrete instances used by witnesses and counterexamples. -/

/-- A put leg of 10 contracts bought for a total cost of 1000. -/
def exLeg10 : Leg :=
  { opex := 0, strike := 50, contract_type := .PUT, shares_per_contract := 100,
    created_at := 0, cost := 1000, quantity := 10, last_trade_price := none,
    hedge_symbol := none }

/-- An asset holding `exLeg10` under symbol 0. -/
def exAsset10 : Asset :=
  { budget_unit := none, budget_value := .scalar 0, legDb := some [(0, exLeg10)],
    profit := 0, slippage := 0 }

/-- The contract snapshot for symbol 0 (bid 0.50, ask 0.60). -/
def exPut : Contract :=
  { symbol := 0, opex := 0, strike := 50, contract_type := .PUT,
    bid_price := 1 / 2, ask_price := 3 / 5 }

/-- A put leg of 2 contracts bought for a total cost of 100. -/
def exLeg2 : Leg :=
  { opex := 0, strike := 50, contract_type := .PUT, shares_per_contract := 100,
    created_at := 0, cost := 100, quantity := 2, last_trade_price := none,
    hedge_symbol := none }

/-- An asset holding `exLeg2` under symbol 0. -/
def exAsset2 : Asset :=
  { budget_unit := none, budget_value := .scalar 0, legDb := some [(0, exLeg2)],
    profit := 0, slippage := 0 }

/-- The contract snapshot for symbol 0 (bid 1, ask 2). -/
def exPutB : Contract :=
  { symbol := 0, opex := 0, strike := 50, contract_type := .PUT,
    bid_price := 1, ask_price := 2 }

/-- A flat ratio2 asset with a zero scalar budget. -/
def exFlatRatio : Asset :=
  { budget_unit := none, budget_value := .scalar 0, legDb := none,
    profit := 0, slippage := 0 }

/-- A flat accumulative asset with a zero scalar budget and no history. -/
def exFlatAcc : AccAsset :=
  { budget_unit := none, budget_value := .scalar 0, position := none, cost := none,
    profit := none, ath := none, acquired_at := none, last_trade_price := none }

/-- A flat accumulative asset with a 100-dollar budget. -/
def exFlatAcc100 : AccAsset := { exFlatAcc with budget_value := .scalar 100 }

/-- An accumulative asset holding 2 shares at total cost 80, budget 10000. -/
def exAccPos : AccAsset :=
  { budget_unit := none, budget_value := .scalar 10000, position := some 2,
    cost := some 80, profit := none, ath := some 50, acquired_at := some 0,
    last_trade_price := none }

/-- An underlying quote: bid 49 / ask 50. -/
def exQuote : Quote := { bid_price := 49, ask_price := 50, mark_price := 99 / 2 }

/-- The accumulative positioning configuration with trading disabled. -/
def exAccCfg : AccConfig := { enable_trades := false, follow_last_trade_alpha := none }

/-- An option chain whose every symbol maps to `exPut` (already expired at
any positive `now`). -/
def exChainS : ℕ → Contract := fun _ => exPut

/-- A broker that reports success on every order. -/
def exBrokerT : ℕ → ℤ → Bool := fun _ _ => true

/-- The state `neutralize_acc` leaves `exAccPos` in after a successful
flattening sell at bid 49. -/
def exAccPosResult : AccAsset :=
  { budget_unit := none, budget_value := .scalar 10000, position := none, cost := none,
    profit := some 18, ath := some 50, acquired_at := none, last_trade_price := some 49 }

/-- The never-adjusting callback (closes C7's "eventually returns false"
hypothesis trivially). -/
def exCbNone : AdjustCb := fun _ _ _ => none

/-- The constant measure certifying that `exCbNone` never adjusts. -/
def exMuZero : Asset → ℕ := fun _ => 0

/-- An asset holding a single naked short call. -/
def exShortCall : Asset :=
  { budget_unit := none, budget_value := .scalar 500,
    legDb := some [(7,
      { opex := 0, strike := 100, contract_type := .CALL, shares_per_contract := 100,
        created_at := 0, cost := -50, quantity := -1, last_trade_price := none,
        hedge_symbol := none })],
    profit := 0, slippage := 0 }

/-! ### Order sequences and the ledger invariant. -/

/-- One order application: the two ledger-mutating entry points of the order
executor, with their broker outcome and inputs. -/
inductive Op where
  | single (enable_trades brokerOk : Bool) (now : ℚ) (q : ℤ) (c : Contract)
      (hedged : Option ℕ)
  | spread (enable_trades brokerOk : Bool) (now : ℚ) (q : ℤ) (buy sell : Contract)

/-- Apply one order to an asset (keeping the mutated state). -/
def applyOp (asset : Asset) : Op → Asset
  | .single e b n q c h => (_place_single_order e b n asset q c h).2
  | .spread e b n q buy sell => (_place_spread_order e b n asset q buy sell).2

/-- Apply a sequence of orders left to right. -/
def applyOps (asset : Asset) (ops : List Op) : Asset := ops.foldl applyOp asset

/-- The ledger invariant: no leg has quantity exactly 0, and the `leg_db`
key is removed (rather than left empty) when the last leg is deleted. -/
def LedgerInv (a : Asset) : Prop :=
  match a.legDb with
  | none => True
  | some db => (∀ p ∈ db, p.2.quantity ≠ 0) ∧ db ≠ []

/-! ### Readable forms of the single-order accounting formulas.

These restate the corresponding expressions inside `_place_single_order`
with the constant `NONIDEAL_ADJUSTMENT_FRACTION = 0` already substituted;
`place_single_close_spec` below proves the order function produces exactly
them. -/

/-- The premium at which a single order executes: ask for a buy, bid for a
sell. -/
def closePremium (q : ℤ) (c : Contract) : ℚ :=
  if 0 < q then c.ask_price else c.bid_price

/-- The opposite side of the spread, used for the slippage estimate. -/
def otherPremium (q : ℤ) (c : Contract) : ℚ :=
  if 0 < q then c.bid_price else c.ask_price

/-- Realized profit of the closing portion of a single order against the
existing leg `leg`: closing units (capped at `min(|q|, |existing|)`) times
signed (average cost per unit − exit premium), minus the per-unit
commission. -/
def singleCloseProfit (leg : Leg) (q : ℤ) (premium : ℚ) : ℚ :=
  leg.shares_per_contract * ((min q.natAbs leg.quantity.natAbs : ℕ) : ℚ) *
    (copysign1 q * (leg.cost / ((leg.quantity : ℚ) * leg.shares_per_contract) - premium) -
      COMMISSION_PER_CONTRACT / leg.shares_per_contract)

/-- The signed cost contribution of a closing single order. -/
def singleCloseCost (leg : Leg) (q : ℤ) (premium : ℚ) : ℚ :=
  singleCloseProfit leg q premium +
    (q : ℚ) * (UNITS_PER_CONTRACT * premium + copysign1 q * COMMISSION_PER_CONTRACT)

/-- The slippage contribution of a single order. -/
def singleSlippage (q : ℤ) (c : Contract) : ℚ :=
  ((|closePremium q c - otherPremium q c|) / 2 * UNITS_PER_CONTRACT +
    COMMISSION_PER_CONTRACT) * |(q : ℚ)|

/-! ## Helper lemmas on the ledger primitives. -/

lemma dbMember_of_lookup {db : LegDb} {s : ℕ} {leg : Leg}
    (h : dbLookup db s = some leg) : dbMember db s := by
  simp [dbMember, h]

lemma dbIns_of_member {db : LegDb} {s : ℕ} {l : Leg} (h : dbMember db s) :
    dbIns db s l = db := if_pos h

lemma dbLookup_update_self (db : LegDb) (s : ℕ) (f : Leg → Leg) :
    dbLookup (dbUpdate db s f) s = (dbLookup db s).map f := by
  induction db with
  | nil => rfl
  | cons p rest ih =>
      by_cases hp : p.1 = s
      · simp [dbUpdate, dbLookup, hp]
      · simp [dbUpdate, dbLookup, hp] at ih ⊢
        exact ih

lemma dbUpdate_ne_nil {db : LegDb} {s : ℕ} {f : Leg → Leg} (h : db ≠ []) :
    dbUpdate db s f ≠ [] := by
  cases db with
  | nil => exact absurd rfl h
  | cons p rest => simp [dbUpdate]

lemma dbLookup_ne_nil {db : LegDb} {s : ℕ} {leg : Leg} (h : dbLookup db s = some leg) :
    db ≠ [] := by
  cases db with
  | nil => simp [dbLookup] at h
  | cons p rest => simp

lemma mem_dbIns {db : LegDb} {s : ℕ} {l : Leg} {p : ℕ × Leg}
    (h : p ∈ dbIns db s l) : p ∈ db ∨ p = (s, l) := by
  unfold dbIns at h
  split at h
  · exact Or.inl h
  · rcases List.mem_append.mp h with h1 | h1
    · exact Or.inl h1
    · exact Or.inr (List.mem_singleton.mp h1)

lemma mem_dbErase {db : LegDb} {s : ℕ} {p : ℕ × Leg}
    (h : p ∈ dbErase db s) : p ∈ db ∧ p.1 ≠ s := by
  unfold dbErase at h
  have := List.mem_filter.mp h
  exact ⟨this.1, by simpa using this.2⟩

lemma mem_dbUpdate {db : LegDb} {s : ℕ} {f : Leg → Leg} {p : ℕ × Leg}
    (h : p ∈ dbUpdate db s f) :
    (p ∈ db ∧ p.1 ≠ s) ∨ ∃ l, (s, l) ∈ db ∧ p = (s, f l) := by
  unfold dbUpdate at h
  rcases List.mem_map.mp h with ⟨x, hx, hxp⟩
  by_cases hxs : x.1 = s
  · rw [if_pos hxs] at hxp
    right
    refine ⟨x.2, ?_, ?_⟩
    · rw [← hxs]
      exact hx
    · rw [← hxp, hxs]
  · rw [if_neg hxs] at hxp
    subst hxp
    exact Or.inl ⟨hx, hxs⟩

/-- The generic quantity-write step of both order functions: append-if-absent
has already happened (`db1`), and the entry at key `s` is either erased (new
quantity zero) or overwritten with the nonzero new quantity; every surviving
leg has nonzero quantity provided every `db1` leg at a key other than `s`
does. -/
lemma step_preserves_nonzero {db1 : LegDb} {s : ℕ} {newq : ℤ} {g : Leg → Leg}
    (h1 : ∀ p ∈ db1, p.1 ≠ s → p.2.quantity ≠ 0)
    (hg : ∀ l, (g l).quantity = newq) :
    ∀ p ∈ (if newq = 0 then dbErase db1 s else dbUpdate db1 s g), p.2.quantity ≠ 0 := by
  intro p hp
  by_cases hz : newq = 0
  · rw [if_pos hz] at hp
    obtain ⟨hmem, hne⟩ := mem_dbErase hp
    exact h1 p hmem hne
  · rw [if_neg hz] at hp
    rcases mem_dbUpdate hp with ⟨hmem, hne⟩ | ⟨l, _, rfl⟩
    · exact h1 p hmem hne
    · simpa [hg] using hz

/-- Inserting the freshly initialised (zero-quantity) leg at key `s` keeps
every other key's quantity nonzero. -/
lemma ins_then_key_ne {db0 : LegDb} {s : ℕ} {init : Leg}
    (h0 : ∀ p ∈ db0, p.2.quantity ≠ 0) :
    ∀ p ∈ dbIns db0 s init, p.1 ≠ s → p.2.quantity ≠ 0 := by
  intro p hp hne
  rcases mem_dbIns hp with h | h
  · exact h0 p h
  · exact absurd (congrArg Prod.fst h) hne

/-- The hedge-symbol backlink write preserves quantities. -/
lemma hedge_keeps {db1 : LegDb} {hs sym : ℕ}
    (h1 : ∀ p ∈ db1, p.1 ≠ sym → p.2.quantity ≠ 0) :
    ∀ p ∈ (if dbMember db1 hs then
        dbUpdate db1 hs (fun l => { l with hedge_symbol := some sym }) else db1),
      p.1 ≠ sym → p.2.quantity ≠ 0 := by
  intro p hp hne
  split at hp
  · rcases mem_dbUpdate hp with ⟨hmem, _⟩ | ⟨l, hl, rfl⟩
    · exact h1 p hmem hne
    · exact h1 (hs, l) hl (by simpa using hne)
  · exact h1 p hp hne

lemma getD_nonzero {asset : Asset} (hinv : LedgerInv asset) :
    ∀ p ∈ asset.legDb.getD [], p.2.quantity ≠ 0 := by
  unfold LedgerInv at hinv
  cases h : asset.legDb with
  | none => simp
  | some db =>
      rw [h] at hinv
      simpa using hinv.1

/-- A key-`k` rewrite whose function preserves quantities keeps the
"every key other than `sym` is nonzero" property. -/
lemma update_keeps {db : LegDb} {k sym : ℕ} {g : Leg → Leg}
    (hgq : ∀ l, (g l).quantity = l.quantity)
    (h1 : ∀ p ∈ db, p.1 ≠ sym → p.2.quantity ≠ 0) :
    ∀ p ∈ dbUpdate db k g, p.1 ≠ sym → p.2.quantity ≠ 0 := by
  intro p hp hne
  rcases mem_dbUpdate hp with ⟨hmem, _⟩ | ⟨l, hl, rfl⟩
  · exact h1 p hmem hne
  · rw [hgq]
    exact h1 (k, l) hl (by simpa using hne)

/-- The invariant holds of the asset both order functions build on success. -/
lemma LedgerInv_mk {u : Option BudgetUnit} {v : BudgetValue} {pr sl : ℚ} {db3 : LegDb}
    (h : ∀ p ∈ db3, p.2.quantity ≠ 0) :
    LedgerInv
      { budget_unit := u
        budget_value := v
        legDb := if db3 = [] then none else some db3
        profit := pr
        slippage := sl } := by
  by_cases hnil : db3 = []
  · rw [if_pos hnil]
    unfold LedgerInv
    trivial
  · rw [if_neg hnil]
    unfold LedgerInv
    exact ⟨h, hnil⟩

/-- `_place_single_order` preserves the ledger invariant. -/
lemma single_preserves_inv (e b : Bool) (n : ℚ) (q : ℤ) (c : Contract) (hs : Option ℕ)
    (asset : Asset) (hinv : LedgerInv asset) :
    LedgerInv (_place_single_order e b n asset q c hs).2 := by
  have h0 := getD_nonzero hinv
  unfold _place_single_order
  by_cases hq : q = 0
  · rw [if_pos hq]
    exact hinv
  · rw [if_neg hq]
    dsimp only
    rcases lt_or_gt_of_ne hq with hlt | hgt
    · have hnp : ¬ 0 < q := by omega
      simp only [if_neg hnp]
      split
      · exact hinv
      · apply LedgerInv_mk
        refine step_preserves_nonzero ?_ ?_
        · cases hs with
          | none => exact ins_then_key_ne h0
          | some hsym => exact hedge_keeps (ins_then_key_ne h0)
        · intro l
          rfl
    · simp only [if_pos hgt]
      split
      · exact hinv
      · apply LedgerInv_mk
        refine step_preserves_nonzero ?_ ?_
        · cases hs with
          | none => exact ins_then_key_ne h0
          | some hsym => exact hedge_keeps (ins_then_key_ne h0)
        · intro l
          rfl

/-- `_place_spread_order` preserves the ledger invariant. -/
lemma spread_preserves_inv (e b : Bool) (n : ℚ) (q : ℤ) (buy sell : Contract)
    (asset : Asset) (hinv : LedgerInv asset) :
    LedgerInv (_place_spread_order e b n asset q buy sell).2 := by
  have h0 := getD_nonzero hinv
  unfold _place_spread_order
  dsimp only
  split
  · exact hinv
  · apply LedgerInv_mk
    refine step_preserves_nonzero ?_ ?_
    · apply ins_then_key_ne
      refine step_preserves_nonzero ?_ ?_
      · exact ins_then_key_ne h0
      · intro l
        rfl
    · intro l
      rfl

lemma mem_insertOrd {α : Type} (lt : α → α → Bool) (x : α) :
    ∀ (l : List α) (y : α), y ∈ insertOrd lt x l ↔ y = x ∨ y ∈ l := by
  intro l
  induction l with
  | nil =>
      intro y
      simp [insertOrd]
  | cons z zs ih =>
      intro y
      unfold insertOrd
      split
      · simp only [List.mem_cons, ih y]
        tauto
      · simp only [List.mem_cons]

lemma mem_sortOrd {α : Type} (lt : α → α → Bool) :
    ∀ (l : List α) (y : α), y ∈ sortOrd lt l ↔ y ∈ l := by
  intro l
  induction l with
  | nil =>
      intro y
      simp [sortOrd]
  | cons z zs ih =>
      intro y
      show y ∈ insertOrd lt z (sortOrd lt zs) ↔ _
      rw [mem_insertOrd, ih y]
      simp

lemma sideView_types (t : OptionContractType) (a : Asset) :
    ∀ p ∈ sideView t a, p.2.contract_type = t := by
  intro p hp
  have := List.mem_filter.mp hp
  simpa using this.2

/-- A pass over legs that all carry the side's contract type never hits the
`UNSUPPORTED` bail-out. -/
lemma scanLegs_no_abort {cb : AdjustCb} {a : Asset} {side : LegDb} {t : OptionContractType}
    (ht : t ≠ .UNSUPPORTED) :
    ∀ {l : LegDb}, (∀ p ∈ l, p.2.contract_type = t) → scanLegs cb a side l ≠ .abort := by
  intro l
  induction l with
  | nil =>
      intro _ h
      exact ScanR.noConfusion h
  | cons p rest ih =>
      intro hl h
      unfold scanLegs at h
      rw [if_neg (by rw [hl p (by simp)]; exact ht)] at h
      cases hcb : cb a side p with
      | some a1 =>
          rw [hcb] at h
          exact ScanR.noConfusion h
      | none =>
          rw [hcb] at h
          exact ih (fun q hq => hl q (by simp [hq])) h

/-- A pass that reports an adjustment got it from the callback. -/
lemma scanLegs_adjusted {cb : AdjustCb} {a : Asset} {side : LegDb} :
    ∀ {l : LegDb} {a1 : Asset}, scanLegs cb a side l = .adjusted a1 →
      ∃ p, cb a side p = some a1 := by
  intro l
  induction l with
  | nil =>
      intro a1 h
      exact ScanR.noConfusion h
  | cons p rest ih =>
      intro a1 h
      unfold scanLegs at h
      split at h
      · exact ScanR.noConfusion h
      · cases hcb : cb a side p with
        | some a2 =>
            rw [hcb] at h
            injection h with h2
            exact ⟨p, by rw [hcb, h2]⟩
        | none =>
            rw [hcb] at h
            exact ih h

/-- The per-side while-loop terminates under a decreasing measure, its result
is fuel-independent, and it exits only from a pass with no adjustment: with
no adjustment at all the asset and input view are unchanged, otherwise the
final pass ran over the freshly recomputed side view of the final asset. -/
lemma runSide_term (cb : AdjustCb) (key : Leg → ℚ) (asc : Bool) (t : OptionContractType)
    (μ : Asset → ℕ) (hdec : ∀ a v p a1, cb a v p = some a1 → μ a1 < μ a)
    (ht : t ≠ .UNSUPPORTED) :
    ∀ n (a : Asset) (v : LegDb), μ a < n → (∀ p ∈ v, p.2.contract_type = t) →
      ∃ a1, (∀ fuel, μ a < fuel → runSide cb key asc t fuel v a = some (a1, false)) ∧
        μ a1 ≤ μ a ∧
        ((a1 = a ∧ (v = [] ∨ scanLegs cb a v (sortOrd (legLt key asc) v) = .noHit)) ∨
          (sideView t a1 = [] ∨
            scanLegs cb a1 (sideView t a1)
              (sortOrd (legLt key asc) (sideView t a1)) = .noHit)) := by
  intro n
  induction n with
  | zero =>
      intro a v hμ _
      omega
  | succ n ih =>
      intro a v hμ hv
      by_cases hvnil : v = []
      · refine ⟨a, ?_, le_refl _, Or.inl ⟨rfl, Or.inl hvnil⟩⟩
        intro fuel hfuel
        cases fuel with
        | zero => omega
        | succ f =>
            unfold runSide
            rw [if_pos hvnil]
      · have hvsorted : ∀ p ∈ sortOrd (legLt key asc) v, p.2.contract_type = t := by
          intro p hp
          exact hv p ((mem_sortOrd _ v p).mp hp)
        cases hscan : scanLegs cb a v (sortOrd (legLt key asc) v) with
        | noHit =>
            refine ⟨a, ?_, le_refl _, Or.inl ⟨rfl, Or.inr rfl⟩⟩
            intro fuel hfuel
            cases fuel with
            | zero => omega
            | succ f =>
                unfold runSide
                rw [if_neg hvnil, hscan]
        | abort => exact absurd hscan (scanLegs_no_abort ht hvsorted)
        | adjusted a2 =>
            obtain ⟨p, hp⟩ := scanLegs_adjusted hscan
            have hlt : μ a2 < μ a := hdec a v p a2 hp
            obtain ⟨a1, hrun, hle, hexit⟩ :=
              ih a2 (sideView t a2) (by omega) (sideView_types t a2)
            refine ⟨a1, ?_, by omega, ?_⟩
            · intro fuel hfuel
              cases fuel with
              | zero => omega
              | succ f =>
                  unfold runSide
                  rw [if_neg hvnil, hscan]
                  exact hrun f (by omega)
            · rcases hexit with ⟨rfl, hdisj⟩ | h2
              · exact Or.inr hdisj
              · exact Or.inr h2

/-- `accumulative.availability` only ever mutates the all-time-high field:
the position is unchanged. -/
lemma availability_acc_position {quote : Quote} {asset : AccAsset}
    {r : Option AccAvail × AccAsset}
    (h : availability_acc quote asset = some r) : r.2.position = asset.position := by
  unfold availability_acc at h
  cases hb : budget asset.budget_unit asset.budget_value with
  | none =>
      rw [hb] at h
      simp at h
  | some specs =>
      rw [hb] at h
      dsimp only at h
      split at h
      · cases h
        rfl
      · split at h
        · cases h
          rfl
        · rcases Option.bind_eq_some.mp h with ⟨x1, h1, h⟩
          rcases Option.bind_eq_some.mp h with ⟨x2, h2, h⟩
          rcases Option.bind_eq_some.mp h with ⟨x3, h3, h⟩
          rcases Option.bind_eq_some.mp h with ⟨x4, h4, h⟩
          rcases Option.bind_eq_some.mp h with ⟨x5, h5, h⟩
          cases h
          cases hath : asset.ath with
          | none => simp [hath]
          | some v =>
              simp only [hath]
              split <;> rfl

/-- When `accumulative.neutralize` reports success, the position key has been
deleted: the asset is flat. -/
lemma neutralize_acc_true_flat {cfg : AccConfig} {quote : Quote} {cdca_val now : ℚ}
    {brokerOk : Bool} {asset a2 : AccAsset}
    (h : neutralize_acc cfg quote cdca_val now brokerOk asset = some (true, a2)) :
    a2.position = none := by
  unfold neutralize_acc _maybe_place_stock_order at h
  rcases Option.bind_eq_some.mp h with ⟨r, hav, h⟩
  have hpos := availability_acc_position hav
  dsimp only at h
  by_cases hq : -(asset.position.getD 0) = 0
  · rw [if_pos hq] at h
    simp at h
  · rw [if_neg hq] at h
    cases hspec : r.1 with
    | none =>
        rw [hspec] at h
        simp at h
    | some specs =>
        rw [hspec] at h
        dsimp only at h
        rcases Option.bind_eq_some.mp h with ⟨unit_cost, hcu, h⟩
        simp only [Bool.false_and] at h
        rw [if_neg (by simp : ¬ (false = true))] at h
        rcases Option.bind_eq_some.mp h with ⟨sellAbort, hsa, h⟩
        by_cases hsb : sellAbort = true
        · rw [if_pos hsb] at h
          simp at h
        · rw [if_neg hsb] at h
          by_cases hbk : cfg.enable_trades = true ∧ brokerOk = false
          · rw [if_pos hbk] at h
            simp at h
          · rw [if_neg hbk] at h
            rcases Option.map_eq_some'.mp h with ⟨asset2, hx, hmap⟩
            have hz : r.2.position.getD 0 + -(asset.position.getD 0) = 0 := by
              rw [hpos]
              ring
            rw [if_pos hz] at hmap
            have hsnd := congrArg Prod.snd hmap
            dsimp at hsnd
            rw [← hsnd]

/-- `copysign1` squares to one. -/
lemma copysign1_sq (q : ℤ) : copysign1 q * copysign1 q = 1 := by
  unfold copysign1
  split <;> norm_num

/-- `copysign1 q * q` is `|q|` (the cast of `natAbs`). -/
lemma copysign1_mul_natAbs (q : ℤ) : copysign1 q * (q : ℚ) = ((q.natAbs : ℕ) : ℚ) := by
  have h : ((q.natAbs : ℕ) : ℚ) = |(q : ℚ)| := by
    rw [Int.cast_natAbs]
    push_cast
    rfl
  rw [h]
  unfold copysign1
  rcases lt_trichotomy q 0 with hq | hq | hq
  · rw [if_pos hq, abs_of_neg (by exact_mod_cast hq)]
    ring
  · subst hq
    simp
  · rw [if_neg (by omega), abs_of_pos (by exact_mod_cast hq)]
    ring

/-- Characterization of `_place_single_order` on a closing trade: when the
ledger holds a leg for the traded symbol whose sign is opposite to the
requested quantity, and the broker reports success, the order returns
`true`, realizes the capped average-cost profit, adds the full requested
quantity to the leg (deleting it at zero), and accrues the slippage. -/
lemma place_single_close_spec (enable_trades : Bool) (now : ℚ) (asset : Asset)
    (q : ℤ) (c : Contract) (db : LegDb) (leg : Leg)
    (hdb : asset.legDb = some db)
    (hleg : dbLookup db c.symbol = some leg)
    (hopp : leg.quantity * q < 0) :
    _place_single_order enable_trades true now asset q c none =
      (true,
        { asset with
          legDb :=
            if leg.quantity + q = 0 then
              (if dbErase db c.symbol = [] then none else some (dbErase db c.symbol))
            else
              some (dbUpdate db c.symbol (fun l =>
                { l with
                  quantity := leg.quantity + q
                  last_trade_price := some (closePremium q c)
                  cost := l.cost + singleCloseCost leg q (closePremium q c) }))
          profit := asset.profit + singleCloseProfit leg q (closePremium q c)
          slippage := asset.slippage + singleSlippage q c }) := by
  have hne : db ≠ [] := dbLookup_ne_nil hleg
  have hmem := dbMember_of_lookup hleg
  rcases mul_neg_iff.mp hopp with ⟨hQ, hq⟩ | ⟨hQ, hq⟩
  · -- existing long leg, sell to close
    have hq0 : ¬ q = 0 := by omega
    have hnotpos : ¬ 0 < q := by omega
    have hQneg : ¬ leg.quantity < 0 := by omega
    simp only [_place_single_order, hdb, Option.getD_some, hleg, dbIns_of_member hmem,
      if_neg hq0, if_neg hnotpos, if_neg hQneg, NONIDEAL_ADJUSTMENT_FRACTION,
      closePremium, otherPremium, singleCloseProfit, singleCloseCost, singleSlippage,
      mul_zero, add_zero, mul_one, and_false, false_and, and_true, true_and, if_false,
      or_true, true_or, or_false, false_or, if_true]
    by_cases hz : leg.quantity + q = 0
    · simp only [if_pos hz]
      rw [if_neg (fun h => absurd h.2.2 (by simp))]
    · simp only [if_neg hz, if_neg (dbUpdate_ne_nil hne)]
      rw [if_neg (fun h => absurd h.2.2 (by simp))]
  · -- existing short leg, buy to close
    have hq0 : ¬ q = 0 := by omega
    have hpos : 0 < q := hq
    have hQnotpos : ¬ 0 < leg.quantity := by omega
    simp only [_place_single_order, hdb, Option.getD_some, hleg, dbIns_of_member hmem,
      if_neg hq0, if_pos hpos, if_neg hQnotpos, NONIDEAL_ADJUSTMENT_FRACTION,
      closePremium, otherPremium, singleCloseProfit, singleCloseCost, singleSlippage,
      mul_zero, add_zero, mul_one, and_false, false_and, and_true, true_and, if_false,
      or_true, true_or, or_false, false_or, if_true]
    by_cases hz : leg.quantity + q = 0
    · simp only [if_pos hz]
      rw [if_neg (fun h => absurd h.2.2 (by simp))]
    · simp only [if_neg hz, if_neg (dbUpdate_ne_nil hne)]
      rw [if_neg (fun h => absurd h.2.2 (by simp))]

/-! ## Claim theorems -/

/-- C1.  A partial single-leg close (existing leg of opposite sign, with
`|q| < |existing|`) realizes into `profit` exactly
closing-units × sign(q) × (average cost per unit − exit premium) minus the
per-unit commission (closing-units = shares-per-contract × min(|q|,|existing|)),
and the surviving leg keeps its per-unit cost basis unchanged
(average-cost accounting, not FIFO). -/
theorem single_close_average_cost (enable_trades : Bool) (now : ℚ) (asset : Asset)
    (q : ℤ) (c : Contract) (db : LegDb) (leg : Leg)
    (hdb : asset.legDb = some db)
    (hleg : dbLookup db c.symbol = some leg)
    (hspc : leg.shares_per_contract = UNITS_PER_CONTRACT)
    (hopp : leg.quantity * q < 0)
    (hsmaller : q.natAbs < leg.quantity.natAbs) :
    (_place_single_order enable_trades true now asset q c none).1 = true ∧
    (_place_single_order enable_trades true now asset q c none).2.profit =
      asset.profit +
        UNITS_PER_CONTRACT * ((min q.natAbs leg.quantity.natAbs : ℕ) : ℚ) *
          (copysign1 q * (leg.cost / ((leg.quantity : ℚ) * UNITS_PER_CONTRACT) -
              closePremium q c) -
            COMMISSION_PER_CONTRACT / UNITS_PER_CONTRACT) ∧
    ∃ db1 leg1,
      (_place_single_order enable_trades true now asset q c none).2.legDb = some db1 ∧
      dbLookup db1 c.symbol = some leg1 ∧
      leg1.quantity = leg.quantity + q ∧
      leg1.cost / ((leg1.quantity : ℚ) * UNITS_PER_CONTRACT) =
        leg.cost / ((leg.quantity : ℚ) * UNITS_PER_CONTRACT) := by
  have hQne : leg.quantity ≠ 0 := by
    intro h
    rw [h] at hopp
    simp at hopp
  have hqne : q ≠ 0 := by
    intro h
    rw [h] at hopp
    simp at hopp
  have hz : leg.quantity + q ≠ 0 := by omega
  have hQ0 : (leg.quantity : ℚ) ≠ 0 := Int.cast_ne_zero.mpr hQne
  have hQq0 : ((leg.quantity : ℚ) + (q : ℚ)) ≠ 0 := by
    rw [show (leg.quantity : ℚ) + (q : ℚ) = ((leg.quantity + q : ℤ) : ℚ) by push_cast; ring]
    exact Int.cast_ne_zero.mpr hz
  have hU : UNITS_PER_CONTRACT ≠ 0 := by norm_num [UNITS_PER_CONTRACT]
  have hmin : min q.natAbs leg.quantity.natAbs = q.natAbs := min_eq_left hsmaller.le
  have hkey : singleCloseCost leg q (closePremium q c) =
      (q : ℚ) * leg.cost / (leg.quantity : ℚ) := by
    unfold singleCloseCost singleCloseProfit
    rw [hspc, hmin, ← copysign1_mul_natAbs]
    simp only [UNITS_PER_CONTRACT, COMMISSION_PER_CONTRACT]
    linear_combination
      ((q : ℚ) * leg.cost / (leg.quantity : ℚ) -
        100 * (q : ℚ) * closePremium q c) * copysign1_sq q
  rw [place_single_close_spec enable_trades now asset q c db leg hdb hleg hopp]
  refine ⟨rfl, by simp [singleCloseProfit, hspc], ?_⟩
  refine ⟨dbUpdate db c.symbol (fun l =>
      { l with
        quantity := leg.quantity + q
        last_trade_price := some (closePremium q c)
        cost := l.cost + singleCloseCost leg q (closePremium q c) }),
    { leg with
      quantity := leg.quantity + q
      last_trade_price := some (closePremium q c)
      cost := leg.cost + singleCloseCost leg q (closePremium q c) }, ?_, ?_, rfl, ?_⟩
  · simp only [if_neg hz]
  · rw [dbLookup_update_self, hleg]
    rfl
  · show (leg.cost + singleCloseCost leg q (closePremium q c)) /
        (((leg.quantity + q : ℤ) : ℚ) * UNITS_PER_CONTRACT) =
      leg.cost / ((leg.quantity : ℚ) * UNITS_PER_CONTRACT)
    rw [hkey]
    push_cast
    field_simp
    ring

/-- C1 witness: a leg of 10 contracts at total cost 1000 (cost per unit 1),
4 of which are sold to close at bid 0.50. -/
theorem single_close_average_cost_witness :
    exAsset10.legDb = some [(0, exLeg10)] ∧
    dbLookup [(0, exLeg10)] exPut.symbol = some exLeg10 ∧
    exLeg10.shares_per_contract = UNITS_PER_CONTRACT ∧
    exLeg10.quantity * (-4) < 0 ∧
    (-4 : ℤ).natAbs < exLeg10.quantity.natAbs ∧
    ((_place_single_order false true 0 exAsset10 (-4) exPut none).1 = true ∧
    (_place_single_order false true 0 exAsset10 (-4) exPut none).2.profit =
      exAsset10.profit +
        UNITS_PER_CONTRACT * ((min (-4 : ℤ).natAbs exLeg10.quantity.natAbs : ℕ) : ℚ) *
          (copysign1 (-4) * (exLeg10.cost / ((exLeg10.quantity : ℚ) * UNITS_PER_CONTRACT) -
              closePremium (-4) exPut) -
            COMMISSION_PER_CONTRACT / UNITS_PER_CONTRACT) ∧
    ∃ db1 leg1,
      (_place_single_order false true 0 exAsset10 (-4) exPut none).2.legDb = some db1 ∧
      dbLookup db1 exPut.symbol = some leg1 ∧
      leg1.quantity = exLeg10.quantity + (-4) ∧
      leg1.cost / ((leg1.quantity : ℚ) * UNITS_PER_CONTRACT) =
        exLeg10.cost / ((exLeg10.quantity : ℚ) * UNITS_PER_CONTRACT)) := by
  have h1 : exAsset10.legDb = some [(0, exLeg10)] := rfl
  have h2 : dbLookup [(0, exLeg10)] exPut.symbol = some exLeg10 := rfl
  have h3 : exLeg10.shares_per_contract = UNITS_PER_CONTRACT := by
    norm_num [exLeg10, UNITS_PER_CONTRACT]
  have h4 : exLeg10.quantity * (-4) < 0 := by norm_num [exLeg10]
  have h5 : (-4 : ℤ).natAbs < exLeg10.quantity.natAbs := by norm_num [exLeg10]
  exact ⟨h1, h2, h3, h4, h5,
    single_close_average_cost false 0 exAsset10 (-4) exPut [(0, exLeg10)] exLeg10 h1 h2 h3 h4 h5⟩

/-- C6 counterexample.  A leg holding +2 contracts, sold 3 to close: the
order succeeds and the ledger quantity moves past zero to −1 (a position of
the opposite sign), refuting "the closing trade never moves the leg's ledger
quantity past zero". -/
theorem close_cap_counterexample :
    (0 : ℤ) < exLeg2.quantity ∧
    (_place_single_order false true 0 exAsset2 (-3) exPutB none).1 = true ∧
    ((_place_single_order false true 0 exAsset2 (-3) exPutB none).2.legDb.getD []).map
      (fun p => (p.1, p.2.quantity)) = [(0, -1)] := by
  have hspec := place_single_close_spec false 0 exAsset2 (-3) exPutB [(0, exLeg2)] exLeg2
    rfl rfl (by norm_num [exLeg2])
  rw [hspec]
  refine ⟨by norm_num [exLeg2], rfl, ?_⟩
  norm_num [exLeg2, exPutB, dbUpdate]

/-- C6 (amended).  For a single-leg close, the closing units entering the
realized-profit computation are capped at `min(|requested|, |existing|)`
(the cap inside `singleCloseProfit`), but the ledger quantity is incremented
by the full requested quantity: when the sum is nonzero the leg survives
with quantity `existing + requested`, which has the opposite sign whenever
`|requested| > |existing|`. -/
theorem close_cap_amended (enable_trades : Bool) (now : ℚ) (asset : Asset)
    (q : ℤ) (c : Contract) (db : LegDb) (leg : Leg)
    (hdb : asset.legDb = some db)
    (hleg : dbLookup db c.symbol = some leg)
    (hopp : leg.quantity * q < 0) :
    (_place_single_order enable_trades true now asset q c none).1 = true ∧
    (_place_single_order enable_trades true now asset q c none).2.profit =
      asset.profit + singleCloseProfit leg q (closePremium q c) ∧
    (leg.quantity + q ≠ 0 →
      ∃ db1 leg1,
        (_place_single_order enable_trades true now asset q c none).2.legDb = some db1 ∧
        dbLookup db1 c.symbol = some leg1 ∧
        leg1.quantity = leg.quantity + q) := by
  rw [place_single_close_spec enable_trades now asset q c db leg hdb hleg hopp]
  refine ⟨rfl, rfl, fun hz => ?_⟩
  refine ⟨dbUpdate db c.symbol (fun l =>
      { l with
        quantity := leg.quantity + q
        last_trade_price := some (closePremium q c)
        cost := l.cost + singleCloseCost leg q (closePremium q c) }),
    { leg with
      quantity := leg.quantity + q
      last_trade_price := some (closePremium q c)
      cost := leg.cost + singleCloseCost leg q (closePremium q c) }, ?_, ?_, rfl⟩
  · simp only [if_neg hz]
  · rw [dbLookup_update_self, hleg]
    rfl

/-- C6 (amended) witness: the +2 leg sold 3 to close; the surviving ledger
quantity is −1 = 2 + (−3). -/
theorem close_cap_amended_witness :
    exAsset2.legDb = some [(0, exLeg2)] ∧
    dbLookup [(0, exLeg2)] exPutB.symbol = some exLeg2 ∧
    exLeg2.quantity * (-3) < 0 ∧
    ((_place_single_order false true 0 exAsset2 (-3) exPutB none).1 = true ∧
    (_place_single_order false true 0 exAsset2 (-3) exPutB none).2.profit =
      exAsset2.profit + singleCloseProfit exLeg2 (-3) (closePremium (-3) exPutB) ∧
    (exLeg2.quantity + (-3) ≠ 0 →
      ∃ db1 leg1,
        (_place_single_order false true 0 exAsset2 (-3) exPutB none).2.legDb = some db1 ∧
        dbLookup db1 exPutB.symbol = some leg1 ∧
        leg1.quantity = exLeg2.quantity + (-3))) := by
  have h4 : exLeg2.quantity * (-3) < 0 := by norm_num [exLeg2]
  exact ⟨rfl, rfl, h4,
    close_cap_amended false 0 exAsset2 (-3) exPutB [(0, exLeg2)] exLeg2 rfl rfl h4⟩

/-- C2.  Starting from any asset satisfying the ledger invariant (no leg
with quantity 0, and no empty `leg_db`), any sequence of single-leg and
spread order applications preserves it: a leg reaching quantity zero is
deleted by the same operation, and the ledger itself is removed when its
last leg goes. -/
theorem ledger_zero_quantity_invariant (asset : Asset) (ops : List Op)
    (hinv : LedgerInv asset) : LedgerInv (applyOps asset ops) := by
  induction ops generalizing asset with
  | nil => exact hinv
  | cons op rest ih =>
      cases op with
      | single e b n q c h =>
          exact ih _ (single_preserves_inv e b n q c h asset hinv)
      | spread e b n q buy sell =>
          exact ih _ (spread_preserves_inv e b n q buy sell asset hinv)

/-- C2 witness: a flat asset through an opening single order followed by a
spread order. -/
theorem ledger_zero_quantity_invariant_witness :
    LedgerInv exFlatRatio ∧
    LedgerInv (applyOps exFlatRatio
      [Op.single false true 0 2 exPut none, Op.spread false true 0 1 exPutB exPut]) :=
  ⟨trivial,
    ledger_zero_quantity_invariant exFlatRatio
      [Op.single false true 0 2 exPut none, Op.spread false true 0 1 exPutB exPut] trivial⟩

/-- C3.  Whenever the call side of the ledger is net short (the summed signed
call-leg quantity is negative), `_total_cost` returns the distinguished
saturating maximum (`math.inf`), whatever the put side holds. -/
theorem total_cost_undefined_risk (asset : Asset)
    (h : (((asset.legDb.getD []).filter
        (fun p => decide (p.2.contract_type = .CALL))).map (fun p => p.2.quantity)).sum < 0) :
    _total_cost asset = .inf := by
  simp only [_total_cost]
  rw [if_pos h]

/-- C3 witness: one naked short call (quantity −1), put side irrelevant. -/
theorem total_cost_undefined_risk_witness :
    ((((exShortCall.legDb.getD []).filter
        (fun p => decide (p.2.contract_type = .CALL))).map (fun p => p.2.quantity)).sum < 0) ∧
    _total_cost exShortCall = .inf :=
  ⟨by decide, total_cost_undefined_risk exShortCall (by decide)⟩

/-- C4.  When trading is enabled and the broker call is actually made
(a buy, or a sell whose bid clears the minimum sell premium; for a spread,
a short-leg bid clearing the minimum) and the broker reports failure, both
order functions return `false` and leave the asset — ledger, `profit` and
`slippage` — untouched. -/
theorem broker_reject_atomicity (now now2 : ℚ) (asset asset2 : Asset) (q q2 : ℤ)
    (c buy sell : Contract) (hedged : Option ℕ)
    (hq : 0 < q ∨ (q < 0 ∧ MIN_SELL_PREMIUM ≤ c.bid_price))
    (hs : MIN_SELL_PREMIUM ≤ sell.bid_price) :
    _place_single_order true false now asset q c hedged = (false, asset) ∧
    _place_spread_order true false now2 asset2 q2 buy sell = (false, asset2) := by
  have hq0 : ¬ q = 0 := by
    rcases hq with h | ⟨h, _⟩ <;> omega
  have hprem : 0 < q ∨ MIN_SELL_PREMIUM ≤ (if 0 < q then c.ask_price else c.bid_price) := by
    rcases hq with h | ⟨h, hb⟩
    · exact Or.inl h
    · right
      rw [if_neg (by omega)]
      exact hb
  constructor
  · simp only [_place_single_order]
    rw [if_neg hq0, if_pos ⟨trivial, hprem, trivial⟩]
  · simp only [_place_spread_order]
    rw [if_pos ⟨trivial, hs, trivial⟩]

/-- Evaluation of the minimum-sell-premium constant. -/
lemma MIN_SELL_PREMIUM_eq : MIN_SELL_PREMIUM = 3 / 5 := by
  norm_num [MIN_SELL_PREMIUM, MIN_COST_PREMIUM, MAX_BUY_MARGIN_PREMIUM]

/-- C4 witness: a sell of 1 contract at bid 2 (≥ 0.6) and a spread whose
short-leg bid is 2, both with the broker reporting failure. -/
theorem broker_reject_atomicity_witness :
    ((0 : ℤ) < -1 ∨ ((-1 : ℤ) < 0 ∧ MIN_SELL_PREMIUM ≤ exPutB.bid_price)) ∧
    MIN_SELL_PREMIUM ≤ exPutB.bid_price ∧
    _place_single_order true false 0 exAsset2 (-1) exPutB none = (false, exAsset2) ∧
    _place_spread_order true false 0 exAsset2 1 exPut exPutB = (false, exAsset2) := by
  have hb : MIN_SELL_PREMIUM ≤ exPutB.bid_price := by
    norm_num [MIN_SELL_PREMIUM_eq, exPutB]
  refine ⟨Or.inr ⟨by norm_num, hb⟩, hb, ?_⟩
  exact broker_reject_atomicity 0 0 exAsset2 exAsset2 (-1) 1 exPutB exPut exPutB none
    (Or.inr ⟨by norm_num, hb⟩) hb

/-- C5.  Budget resolution: a two-element range `[a, b]` with
`a ≤ 0 ≤ b` and `a < b` resolves to `(short, long) = (a, b)` with the given
or defaulted unit; a range of the wrong length, or one whose ordered
endpoints satisfy `short > 0`, `long < 0` or `short ≥ long`, resolves to the
invalid-budget failure; a positive scalar gives `(0, x)`, a negative scalar
`(x, 0)`, and scalar zero `(0, 0)` without error. -/
theorem budget_resolution (unit? : Option BudgetUnit) (a b x : ℚ) (xs : List ℚ) :
    (a ≤ 0 → 0 ≤ b → a < b →
      budget unit? (.range [a, b]) = some { unit := unit?.getD .DOLLAR, amount := (a, b) }) ∧
    (xs.length ≠ 2 → budget unit? (.range xs) = none) ∧
    ((0 < min a b ∨ max a b < 0 ∨ max a b ≤ min a b) →
      budget unit? (.range [a, b]) = none) ∧
    (0 < x → budget unit? (.scalar x) = some { unit := unit?.getD .DOLLAR, amount := (0, x) }) ∧
    (x < 0 → budget unit? (.scalar x) = some { unit := unit?.getD .DOLLAR, amount := (x, 0) }) ∧
    budget unit? (.scalar 0) = some { unit := unit?.getD .DOLLAR, amount := (0, 0) } := by
  refine ⟨?_, ?_, ?_, ?_, ?_, ?_⟩
  · intro ha hb hab
    have hmin : min a b = a := min_eq_left hab.le
    have hmax : max a b = b := max_eq_right hab.le
    simp only [budget, hmin, hmax]
    rw [if_neg]
    push_neg
    exact ⟨ha, hb, hab⟩
  · intro hlen
    rcases xs with _ | ⟨x1, _ | ⟨x2, _ | ⟨x3, rest⟩⟩⟩
    · simp [budget]
    · simp [budget]
    · simp at hlen
    · simp [budget]
  · intro h
    simp only [budget]
    rw [if_pos h]
  · intro hx
    simp only [budget]
    rw [if_pos hx]
  · intro hx
    simp only [budget]
    rw [if_neg (by linarith), if_pos hx]
  · simp only [budget]
    rw [if_neg (by norm_num), if_neg (by norm_num)]

/-- C5 witness: a concrete instance of every clause. -/
theorem budget_resolution_witness :
    ((-2 : ℚ) ≤ 0 ∧ (0 : ℚ) ≤ 3 ∧ (-2 : ℚ) < 3 ∧
      budget none (.range [-2, 3]) = some { unit := .DOLLAR, amount := (-2, 3) }) ∧
    (([1, 2, 3] : List ℚ).length ≠ 2 ∧ budget none (.range [1, 2, 3]) = none) ∧
    ((0 : ℚ) < min (2 : ℚ) 3 ∧ budget none (.range [2, 3]) = none) ∧
    ((0 : ℚ) < 5 ∧ budget none (.scalar 5) = some { unit := .DOLLAR, amount := (0, 5) }) ∧
    ((-5 : ℚ) < 0 ∧ budget none (.scalar (-5)) = some { unit := .DOLLAR, amount := (-5, 0) }) ∧
    budget none (.scalar 0) = some { unit := .DOLLAR, amount := (0, 0) } := by
  refine ⟨⟨by norm_num, by norm_num, by norm_num, ?_⟩, ⟨by norm_num, ?_⟩,
    ⟨by norm_num, ?_⟩, ⟨by norm_num, ?_⟩, ⟨by norm_num, ?_⟩, ?_⟩
  · exact (budget_resolution none (-2) 3 0 []).1 (by norm_num) (by norm_num) (by norm_num)
  · exact (budget_resolution none 0 0 0 [1, 2, 3]).2.1 (by norm_num)
  · exact (budget_resolution none 2 3 0 []).2.2.1 (Or.inl (by norm_num))
  · exact (budget_resolution none 0 0 5 []).2.2.2.1 (by norm_num)
  · exact (budget_resolution none 0 0 (-5) []).2.2.2.2.1 (by norm_num)
  · exact (budget_resolution none 0 0 0 []).2.2.2.2.2

/-- C7.  For every asset and every adjustment callback that can only adjust
finitely often (witnessed by a measure `μ` that strictly decreases at every
adjustment — the formal content of "eventually returns false for all
remaining legs"), the scan-and-adjust driver terminates: beyond the fuel
bound `μ a` its result no longer depends on the fuel (the unbounded Python
loop ends).  After each adjustment the side view is recomputed from the
mutated ledger and the side restarts from the top (the `runSide` recursion),
and each side is left only after a full pass in which the callback performed
no adjustment: at exit the current view `v` is either empty or scans with no
hit, `v` being the side's entry view if nothing was adjusted and the
recomputed view of the final asset otherwise. -/
theorem scan_and_adjust_termination
    (cb : AdjustCb) (key : Leg → ℚ) (asc : Bool) (μ : Asset → ℕ)
    (hdec : ∀ a v p a1, cb a v p = some a1 → μ a1 < μ a) (a : Asset) :
    ∃ a1 afin,
      (∀ fuel, μ a < fuel → _scan_and_adjust cb key asc fuel a = some afin) ∧
      (∀ fuel, μ a < fuel →
        runSide cb key asc .CALL fuel (sideView .CALL a) a = some (a1, false)) ∧
      (∀ fuel, μ a1 < fuel →
        runSide cb key asc .PUT fuel (sideView .PUT a) a1 = some (afin, false)) ∧
      (∃ v, (v = sideView .CALL a ∨ v = sideView .CALL a1) ∧
        (v = [] ∨ scanLegs cb a1 v (sortOrd (legLt key asc) v) = .noHit)) ∧
      (∃ v, (v = sideView .PUT a ∨ v = sideView .PUT afin) ∧
        (v = [] ∨ scanLegs cb afin v (sortOrd (legLt key asc) v) = .noHit)) := by
  obtain ⟨a1, hrunC, hleC, hexitC⟩ :=
    runSide_term cb key asc .CALL μ hdec (by decide) (μ a + 1) a (sideView .CALL a)
      (by omega) (sideView_types .CALL a)
  obtain ⟨afin, hrunP, hleP, hexitP⟩ :=
    runSide_term cb key asc .PUT μ hdec (by decide) (μ a1 + 1) a1 (sideView .PUT a)
      (by omega) (sideView_types .PUT a)
  refine ⟨a1, afin, ?_, hrunC, hrunP, ?_, ?_⟩
  · intro fuel hf
    unfold _scan_and_adjust
    dsimp only
    rw [hrunC fuel hf]
    dsimp only
    rw [hrunP fuel (by omega)]
    rfl
  · rcases hexitC with ⟨rfl, hd⟩ | h2
    · exact ⟨sideView .CALL a1, Or.inl rfl, hd⟩
    · exact ⟨sideView .CALL a1, Or.inr rfl, h2⟩
  · rcases hexitP with ⟨rfl, hd⟩ | h2
    · exact ⟨sideView .PUT a, Or.inl rfl, hd⟩
    · exact ⟨sideView .PUT afin, Or.inr rfl, h2⟩

/-- C7 witness: the never-adjusting callback with the zero measure on a
one-leg asset. -/
theorem scan_and_adjust_termination_witness :
    (∀ a v p a1, exCbNone a v p = some a1 → exMuZero a1 < exMuZero a) ∧
    ∃ a1 afin,
      (∀ fuel, exMuZero exAsset10 < fuel →
        _scan_and_adjust exCbNone (fun l => (l.quantity : ℚ)) true fuel exAsset10 =
          some afin) ∧
      (∀ fuel, exMuZero exAsset10 < fuel →
        runSide exCbNone (fun l => (l.quantity : ℚ)) true .CALL fuel
          (sideView .CALL exAsset10) exAsset10 = some (a1, false)) ∧
      (∀ fuel, exMuZero a1 < fuel →
        runSide exCbNone (fun l => (l.quantity : ℚ)) true .PUT fuel
          (sideView .PUT exAsset10) a1 = some (afin, false)) ∧
      (∃ v, (v = sideView .CALL exAsset10 ∨ v = sideView .CALL a1) ∧
        (v = [] ∨ scanLegs exCbNone a1 v
          (sortOrd (legLt (fun l => (l.quantity : ℚ)) true) v) = .noHit)) ∧
      (∃ v, (v = sideView .PUT exAsset10 ∨ v = sideView .PUT afin) ∧
        (v = [] ∨ scanLegs exCbNone afin v
          (sortOrd (legLt (fun l => (l.quantity : ℚ)) true) v) = .noHit)) := by
  have hdec : ∀ a v p a1, exCbNone a v p = some a1 → exMuZero a1 < exMuZero a :=
    fun a v p a1 h => Option.noConfusion h
  exact ⟨hdec, scan_and_adjust_termination exCbNone (fun l => (l.quantity : ℚ)) true
    exMuZero hdec exAsset10⟩

/-- C8 counterexample.  An already-flat accumulative asset (valid
100-dollar budget, no position): `neutralize` returns `false` even though
the holdings are empty before and after the call (the zero-quantity order is
rejected by `_maybe_place_stock_order`), refuting "an asset that is already
flat before the call yields true" and the "exactly when" in the claim. -/
theorem neutralize_counterexample :
    neutralize_acc exAccCfg exQuote 0 0 true exFlatAcc100 =
      some (false, { exFlatAcc100 with ath := some 50 }) ∧
    exFlatAcc100.position = none ∧
    ({ exFlatAcc100 with ath := some 50 } : AccAsset).position = none := by
  refine ⟨?_, rfl, rfl⟩
  norm_num [neutralize_acc, _maybe_place_stock_order, availability_acc, cost_per_unit_acc,
    budget, pydiv, pytrunc, exAccCfg, exQuote, exFlatAcc100, exFlatAcc, Option.bind, copysign1]

/-- C8 (amended).  The option variant returns true exactly when no legs
remain after the call (in particular an already-flat asset yields true and
any remaining leg yields false); the accumulative variant returns true only
when its position is zero after the call, but an already-flat accumulative
asset yields false because the zero-quantity flattening order aborts. -/
theorem neutralize_amended
    (chain : ℕ → Contract) (brokerF : ℕ → ℤ → Bool) (enable_trades : Bool)
    (now : ℚ) (fuel : ℕ) (asset : Asset) (b : Bool) (a1 : Asset)
    (cfg : AccConfig) (quote : Quote) (cdca_val now2 : ℚ) (brokerOk : Bool)
    (acc a2 : AccAsset)
    (h1 : neutralize chain brokerF enable_trades now fuel asset = some (b, a1))
    (h2 : neutralize_acc cfg quote cdca_val now2 brokerOk acc = some (true, a2)) :
    (b = true ↔ a1.legDb = none) ∧ a2.position = none := by
  refine ⟨?_, neutralize_acc_true_flat h2⟩
  unfold neutralize at h1
  by_cases hdb : asset.legDb = none
  · rw [if_pos hdb] at h1
    injection h1 with h1'
    injection h1' with hb ha
    subst hb
    subst ha
    simp [hdb]
  · rw [if_neg hdb] at h1
    cases hscan : _scan_and_adjust (neutralizeCb chain brokerF enable_trades now)
        (fun l => (l.quantity : ℚ)) true fuel asset with
    | none =>
        rw [hscan] at h1
        simp at h1
    | some a0 =>
        rw [hscan] at h1
        injection h1 with h1'
        injection h1' with hb ha
        subst hb
        subst ha
        exact Option.isNone_iff_eq_none

/-- C8 (amended) witness: the flat option asset (returns true, ledger
absent) and a 2-share accumulative asset whose flattening sell succeeds
(returns true, position deleted). -/
theorem neutralize_amended_witness :
    neutralize exChainS exBrokerT false 0 1 exFlatRatio = some (true, exFlatRatio) ∧
    neutralize_acc exAccCfg exQuote 0 0 true exAccPos = some (true, exAccPosResult) ∧
    ((true = true ↔ exFlatRatio.legDb = none) ∧ exAccPosResult.position = none) := by
  have h1 : neutralize exChainS exBrokerT false 0 1 exFlatRatio = some (true, exFlatRatio) := rfl
  have h2 : neutralize_acc exAccCfg exQuote 0 0 true exAccPos = some (true, exAccPosResult) := by
    norm_num [neutralize_acc, _maybe_place_stock_order, availability_acc, cost_per_unit_acc,
      budget, pydiv, pytrunc, exAccCfg, exQuote, exAccPos, exAccPosResult, Option.bind, copysign1]
  exact ⟨h1, h2,
    neutralize_amended exChainS exBrokerT false 0 1 exFlatRatio true exFlatRatio
      exAccCfg exQuote 0 0 true exAccPos exAccPosResult h1 h2⟩

/-- C9.  The claim says the availability calculators never raise on a zero
budget; in fact both raise `ZeroDivisionError` on a zero-budget flat asset:
the accumulative variant divides by `total_trades_float = 0` when computing
the vacancy fractions, and the ratio2 variant divides by `budget_long = 0`.
This theorem evaluates both calculators at those failing inputs and shows
the exception (`none`). -/
theorem availability_zero_budget_raises :
    availability_acc exQuote exFlatAcc = none ∧
    availability_ratio2 1 exFlatRatio = none := by
  constructor
  · norm_num [availability_acc, budget, pydiv, exFlatAcc, exQuote, Option.bind]
  · norm_num [availability_ratio2, budget, pydiv, _total_cost, exFlatRatio, Option.bind]
    intro h
    exact absurd h (by decide)

/-- C10.  With trading enabled, a sell order whose bid premium is below
`MIN_SELL_PREMIUM` — and a spread order whose short-leg bid premium is below
`MIN_SELL_PREMIUM` — skip the broker entirely: the outcome does not depend
on the broker's answer, the full ledger update runs, and both functions
return `true`. -/
theorem skip_broker_below_min_sell (now now2 : ℚ) (asset asset2 : Asset) (q q2 : ℤ)
    (c buy sell : Contract) (hedged : Option ℕ) (b1 b2 : Bool)
    (hq : q < 0) (hc : c.bid_price < MIN_SELL_PREMIUM)
    (hsell : sell.bid_price < MIN_SELL_PREMIUM) :
    _place_single_order true b1 now asset q c hedged =
      _place_single_order true b2 now asset q c hedged ∧
    (_place_single_order true b1 now asset q c hedged).1 = true ∧
    _place_spread_order true b1 now2 asset2 q2 buy sell =
      _place_spread_order true b2 now2 asset2 q2 buy sell ∧
    (_place_spread_order true b1 now2 asset2 q2 buy sell).1 = true := by
  have hq0 : ¬ q = 0 := by omega
  have hcond : ∀ b : Bool,
      ¬ (True ∧ (0 < q ∨ MIN_SELL_PREMIUM ≤ (if 0 < q then c.ask_price else c.bid_price)) ∧
        b = false) := by
    intro b h
    rcases h.2.1 with h1 | h1
    · omega
    · rw [if_neg (by omega)] at h1
      exact absurd hc (not_lt.mpr h1)
  have hconds : ∀ b : Bool,
      ¬ (True ∧ MIN_SELL_PREMIUM ≤ sell.bid_price ∧ b = false) := by
    intro b h
    exact absurd hsell (not_lt.mpr h.2.1)
  refine ⟨?_, ?_, ?_, ?_⟩
  · simp only [_place_single_order]
    rw [if_neg hq0, if_neg hq0, if_neg (hcond b1), if_neg (hcond b2)]
  · simp only [_place_single_order]
    rw [if_neg hq0, if_neg (hcond b1)]
  · simp only [_place_spread_order]
    rw [if_neg (hconds b1), if_neg (hconds b2)]
  · simp only [_place_spread_order]
    rw [if_neg (hconds b1)]

/-- C10 witness: selling 1 contract at bid 0.50 (< 0.60), and a spread whose
short-leg bid is 0.50, with the broker answering `false` vs `true`. -/
theorem skip_broker_below_min_sell_witness :
    ((-1 : ℤ) < 0 ∧ exPut.bid_price < MIN_SELL_PREMIUM ∧
      exPut.bid_price < MIN_SELL_PREMIUM) ∧
    (_place_single_order true false 0 exAsset10 (-1) exPut none =
      _place_single_order true true 0 exAsset10 (-1) exPut none ∧
    (_place_single_order true false 0 exAsset10 (-1) exPut none).1 = true ∧
    _place_spread_order true false 0 exAsset10 1 exPutB exPut =
      _place_spread_order true true 0 exAsset10 1 exPutB exPut ∧
    (_place_spread_order true false 0 exAsset10 1 exPutB exPut).1 = true) := by
  have hb : exPut.bid_price < MIN_SELL_PREMIUM := by
    norm_num [MIN_SELL_PREMIUM_eq, exPut]
  exact ⟨⟨by norm_num, hb, hb⟩,
    skip_broker_below_min_sell 0 0 exAsset10 exAsset10 (-1) 1 exPut exPutB exPut none false true
      (by norm_num) hb hb⟩

end Autoassets
